import Mathlib

/-!
Verification of the sector-builder scheduler (`filecoin-proofs`,
`api/sector_builder/scheduler.rs`) and of the proof-of-retrievability
challenge-bit decomposition (`storage-proofs`, `circuit/por.rs`).

The scheduler's `SectorMetadataManager` owns a `SectorBuilderState` holding a
staged-sector map and a sealed-sector map (Rust `HashMap`s, embedded here as
association lists of key/value pairs).  External collaborators — the key-value
snapshot store, the sealer worker pool and its channels, and the PoSt proof
generator — are embedded as explicit parameters: a boolean `ckOk` stands for
"the snapshot write succeeded", dispatched sealer jobs are collected into a
list, and the proof generator is a function argument.  Handlers that the Rust
code makes abort the process (via `.expects(...)`) are embedded with an
explicit `fatal` flag in their outcome.

Helper functions that live outside the provided sources (the packing helper
`add_piece`, `get_sectors_ready_for_sealing`, `get_seal_status`, the snapshot
codec) are modelled from the specification; each such definition carries a
doc comment saying so.
-/

namespace SectorBuilder

/-- Sector identifiers are unsigned 64-bit integers in the source; only
increment-by-one and equality are used here, so they are embedded as `Nat`. -/
abbrev SectorId := Nat

/-- A 32-byte commitment (`[u8; 32]`); only equality on commitments is used
by the scheduler, so it is embedded as an abstract `Nat`. -/
abbrev CommR := Nat

/-- First-match lookup in an association list, the embedding of
`HashMap::get`. -/
def mapLookup {β : Type} : List (Nat × β) → Nat → Option β
  | [], _ => none
  | p :: rest, k => if p.1 = k then some p.2 else mapLookup rest k

/-- Removal of a key, the embedding of `HashMap::remove` (a `HashMap` holds a
key at most once, so removing every pair with the key is extensionally the
same operation). -/
def mapRemove {β : Type} : List (Nat × β) → Nat → List (Nat × β)
  | [], _ => []
  | p :: rest, k => if p.1 = k then mapRemove rest k else p :: mapRemove rest k

/-- Insertion of a key/value pair, the embedding of `HashMap::insert`
(replacing any previous binding of the key). -/
def mapInsert {β : Type} (l : List (Nat × β)) (k : Nat) (v : β) : List (Nat × β) :=
  mapRemove l k ++ [(k, v)]

/-- In-place update of the (first) binding of a key, the embedding of
`HashMap::get_mut` followed by a field assignment; a missing key leaves the
map unchanged. -/
def mapModify {β : Type} : List (Nat × β) → Nat → (β → β) → List (Nat × β)
  | [], _, _ => []
  | p :: rest, k, f => if p.1 = k then (p.1, f p.2) :: rest else p :: mapModify rest k f

/-- The key list of an association list, the embedding of `HashMap::keys`. -/
def mapKeys {β : Type} (l : List (Nat × β)) : List Nat :=
  l.map Prod.fst

/-- A piece of user data stored in a sector (`metadata.rs` `PieceMetadata`):
key, byte count, offset inside the sector's unsealed representation. -/
structure PieceMetadata where
  piece_key : String
  num_bytes : Nat
  offset_in_sector : Nat
  deriving Repr, DecidableEq

/-- The sealing lifecycle status of a sector (`metadata.rs` `SealStatus`). -/
inductive SealStatus where
  | Pending
  | Sealing
  | Failed (msg : String)
  | Sealed
  deriving Repr, DecidableEq

/-- Metadata of a staged (not yet sealed) sector
(`metadata.rs` `StagedSectorMetadata`). -/
structure StagedSectorMetadata where
  sector_id : SectorId
  sector_access : String
  pieces : List PieceMetadata
  seal_status : SealStatus
  accepted_bytes : Nat
  deriving Repr, DecidableEq

/-- Metadata of a sealed sector (`metadata.rs` `SealedSectorMetadata`); the
scheduler only inspects `comm_r`, `sector_access` and `pieces`, so the other
commitment and proof bytes are omitted from the embedding. -/
structure SealedSectorMetadata where
  sector_id : SectorId
  sector_access : String
  pieces : List PieceMetadata
  comm_r : CommR
  deriving Repr, DecidableEq

/-- The staged half of the builder state (`state.rs` `StagedState`). -/
structure StagedState where
  sector_id_nonce : SectorId
  sectors : List (SectorId × StagedSectorMetadata)
  deriving Repr, DecidableEq

/-- The sealed half of the builder state (`state.rs` `SealedState`). -/
structure SealedState where
  sectors : List (SectorId × SealedSectorMetadata)
  deriving Repr, DecidableEq

/-- The full builder state (`state.rs` `SectorBuilderState`); `prover_id` is
a 31-byte array in the source, embedded as a byte list. -/
structure SectorBuilderState where
  prover_id : List Nat
  staged : StagedState
  sealed : SealedState
  deriving Repr, DecidableEq

/-- A metadata snapshot as persisted by `checkpoint`
(`helpers/snapshots.rs` builds it from prover id, staged and sealed state). -/
structure Snapshot where
  prover_id : List Nat
  staged : StagedState
  sealed : SealedState
  deriving Repr, DecidableEq

/-- The embedding of `make_snapshot(&prover_id, &staged, &sealed)`. -/
def make_snapshot (st : SectorBuilderState) : Snapshot :=
  { prover_id := st.prover_id, staged := st.staged, sealed := st.sealed }

/-- A job dispatched to the sealer worker pool (`sealer.rs` `SealerInput`);
the channels carried by the Rust variants are not data and are omitted. -/
inductive SealerInput where
  | Seal (sector : StagedSectorMetadata)
  | Unseal (piece_key : String) (sector : SealedSectorMetadata)
  deriving Repr, DecidableEq

/-- The result a sealer worker delivers for a seal job
(`Result<SealedSectorMetadata>`); errors are embedded as strings. -/
inductive SealResult where
  | ok (meta : SealedSectorMetadata)
  | err (e : String)
  deriving Repr, DecidableEq

/-- The manager owning all sector metadata (`scheduler.rs`
`SectorMetadataManager`); the store handles and channel endpoints are
externals and are embedded as parameters of the individual handlers. -/
structure SectorMetadataManager where
  state : SectorBuilderState
  max_num_staged_sectors : Nat
  max_user_bytes_per_staged_sector : Nat
  deriving Repr, DecidableEq

/-- The observable outcome of running one request handler: the value sent on
the reply channel (`Except.error` = a recoverable error surfaced to the
caller), whether the handler aborted the process (an `.expects(...)` panic in
the source), the state after the handler, the sealer jobs it dispatched, and
the snapshot it wrote to the key-value store (if any). -/
structure StepOut (α : Type) where
  reply : Except String α
  fatal : Bool
  state : SectorBuilderState
  jobs : List SealerInput
  persisted : Option Snapshot
  deriving Repr

/-- The embedding of `handle_seal_result`'s state mutation (scheduler.rs,
lines 283-301): on `Ok`, remove the staged sector and insert the sealed
metadata under the same id; on `Err`, set the staged sector's status (when
the id is present) to `Failed` of the formatted error.  `fmtErr` stands for
`format!` applied to `err_unrecov` (whose `Display` lives outside src/). -/
def sealResultTransition (fmtErr : String → String) (st : SectorBuilderState)
    (sector_id : SectorId) (result : SealResult) : SectorBuilderState :=
  match result with
  | SealResult.err e =>
      let setFailed := fun (s : StagedSectorMetadata) =>
        { s with seal_status := SealStatus.Failed (fmtErr e) }
      { st with staged :=
          { st.staged with sectors := mapModify st.staged.sectors sector_id setFailed } }
  | SealResult.ok meta =>
      { st with
        staged := { st.staged with sectors := mapRemove st.staged.sectors sector_id },
        sealed := { sectors := mapInsert st.sealed.sectors sector_id meta } }

/-- The embedding of `SectorMetadataManager::handle_seal_result`: apply the
transition, then checkpoint; a checkpoint failure is
`.expects(FATAL_SNPSHT)`, i.e. fatal, and the handler sends no reply. -/
def SectorMetadataManager.handle_seal_result (fmtErr : String → String) (ckOk : Bool)
    (m : SectorMetadataManager) (sector_id : SectorId) (result : SealResult) :
    StepOut Unit :=
  let st' := sealResultTransition fmtErr m.state sector_id result
  { reply := Except.ok (),
    fatal := !ckOk,
    state := st',
    jobs := [],
    persisted := if ckOk then some (make_snapshot st') else none }

/-- Modelled from the spec: `get_seal_status`
(helpers/get_seal_status.rs, not under src/) consults the staged map, then
the sealed map (any sealed hit means `Sealed`), and otherwise reports a
`SectorNotFound` error. -/
def get_seal_status (staged : StagedState) (sealed : SealedState)
    (sector_id : SectorId) : Except String SealStatus :=
  match mapLookup staged.sectors sector_id with
  | some s => Except.ok s.seal_status
  | none =>
      match mapLookup sealed.sectors sector_id with
      | some _ => Except.ok SealStatus.Sealed
      | none => Except.error "SectorNotFound"

/-- The embedding of `SectorMetadataManager::get_seal_status`. -/
def SectorMetadataManager.get_seal_status (m : SectorMetadataManager)
    (sector_id : SectorId) : Except String SealStatus :=
  SectorBuilder.get_seal_status m.state.staged m.state.sealed sector_id

/-- Modelled from the spec: the destination choice of the packing helper
`add_piece` (helpers/add_piece.rs, not under src/) — the first Pending
staged sector whose remaining capacity accommodates the piece. -/
def find_destination (sectors : List (SectorId × StagedSectorMetadata))
    (piece_len max_user : Nat) : Option SectorId :=
  (sectors.find? (fun p =>
    decide (p.2.seal_status = SealStatus.Pending ∧
      p.2.accepted_bytes + piece_len ≤ max_user))).map Prod.fst

/-- Modelled from the spec: the packing helper `add_piece`
(helpers/add_piece.rs, not under src/).  A piece larger than
`max_unsealed_bytes_per_sector` fails with `CapacityExceeded`; otherwise the
piece is appended to a fitting Pending sector, or to a fresh staged sector
whose id is allocated by incrementing `sector_id_nonce` (spec invariant I2).
The sector-access string is opaque in the spec; the fresh sector's access is
derived from its id.  On error the staged state is returned unchanged (the
spec's atomicity clause for the helper). -/
def add_piece_helper (max_user : Nat) (staged : StagedState)
    (piece_key : String) (piece_len : Nat) :
    Except String (SectorId × StagedState) :=
  if max_user < piece_len then Except.error "CapacityExceeded"
  else
    match find_destination staged.sectors piece_len max_user with
    | some sid =>
        Except.ok (sid,
          { staged with sectors := mapModify staged.sectors sid (fun s =>
              { s with
                pieces := s.pieces ++
                  [{ piece_key := piece_key, num_bytes := piece_len,
                     offset_in_sector := s.accepted_bytes }],
                accepted_bytes := s.accepted_bytes + piece_len }) })
    | none =>
        let sid := staged.sector_id_nonce + 1
        let sector : StagedSectorMetadata :=
          { sector_id := sid,
            sector_access := "sector-" ++ toString sid,
            pieces := [{ piece_key := piece_key, num_bytes := piece_len,
                         offset_in_sector := 0 }],
            seal_status := SealStatus.Pending,
            accepted_bytes := piece_len }
        Except.ok (sid, { sector_id_nonce := sid, sectors := staged.sectors ++ [(sid, sector)] })

/-- Modelled from the spec: `get_sectors_ready_for_sealing`
(helpers/get_sectors_ready_for_sealing.rs, not under src/).  When forced
(`SealAllStagedSectors`) every Pending sector is selected regardless of fill
level; otherwise every Pending sector whose `accepted_bytes` reaches
capacity is selected (the spec's admission-pressure clause is
under-specified; no claim settled here depends on the unforced selection). -/
def get_sectors_ready_for_sealing (staged : StagedState)
    (max_user_bytes : Nat) (max_num_staged_sectors : Nat)
    (seal_all_staged_sectors : Bool) : List SectorId :=
  if seal_all_staged_sectors then
    (staged.sectors.filter (fun p => decide (p.2.seal_status = SealStatus.Pending))).map Prod.fst
  else
    (staged.sectors.filter (fun p =>
      decide (p.2.seal_status = SealStatus.Pending ∧ max_user_bytes ≤ p.2.accepted_bytes))).map Prod.fst

/-- The embedding of the loop body of `check_and_schedule` (scheduler.rs,
lines 320-334): for each selected id, look the sector up (`get_mut`; a miss
is `.expects(FATAL_NOSECT)`, embedded as `none`), set its status to Sealing
in place, and dispatch a Seal job carrying the updated sector's clone. -/
def markSealing (sectors : List (SectorId × StagedSectorMetadata)) :
    List SectorId → Option (List (SectorId × StagedSectorMetadata) × List SealerInput)
  | [] => some (sectors, [])
  | sector_id :: rest =>
    match mapLookup sectors sector_id with
    | none => none
    | some s =>
        match markSealing
            (mapModify sectors sector_id
              (fun _ => { s with seal_status := SealStatus.Sealing })) rest with
        | none => none
        | some r =>
            some (r.1, SealerInput.Seal { s with seal_status := SealStatus.Sealing } :: r.2)

/-- The embedding of `SectorMetadataManager::check_and_schedule`; `none`
is the fatal case (missing sector during the marking loop). -/
def SectorMetadataManager.check_and_schedule (m : SectorMetadataManager)
    (seal_all_staged_sectors : Bool) :
    Option (SectorBuilderState × List SealerInput) :=
  let to_be_sealed := get_sectors_ready_for_sealing m.state.staged
    m.max_user_bytes_per_staged_sector m.max_num_staged_sectors seal_all_staged_sectors
  (markSealing m.state.staged.sectors to_be_sealed).map (fun r =>
    ({ m.state with staged := { m.state.staged with sectors := r.1 } }, r.2))

/-- The embedding of `SectorMetadataManager::add_piece`: run the packing
helper, then `check_and_schedule(false)`, then checkpoint; helper and
checkpoint errors are returned to the caller via `?`. -/
def SectorMetadataManager.add_piece (ckOk : Bool) (m : SectorMetadataManager)
    (piece_key : String) (piece_len : Nat) : StepOut SectorId :=
  match add_piece_helper m.max_user_bytes_per_staged_sector m.state.staged piece_key piece_len with
  | Except.error e =>
      { reply := Except.error e, fatal := false, state := m.state, jobs := [], persisted := none }
  | Except.ok r =>
      let m1 : SectorMetadataManager := { m with state := { m.state with staged := r.2 } }
      match m1.check_and_schedule false with
      | none =>
          { reply := Except.error "could not find sector", fatal := true,
            state := m1.state, jobs := [], persisted := none }
      | some r2 =>
          if ckOk then
            { reply := Except.ok r.1, fatal := false, state := r2.1, jobs := r2.2,
              persisted := some (make_snapshot r2.1) }
          else
            { reply := Except.error "StoreError", fatal := false, state := r2.1,
              jobs := r2.2, persisted := none }

/-- The embedding of `SectorMetadataManager::seal_all_staged_sectors`:
`check_and_schedule(true)` then checkpoint, whose error is returned. -/
def SectorMetadataManager.seal_all_staged_sectors (ckOk : Bool)
    (m : SectorMetadataManager) : StepOut Unit :=
  match m.check_and_schedule true with
  | none =>
      { reply := Except.error "could not find sector", fatal := true,
        state := m.state, jobs := [], persisted := none }
  | some r =>
      if ckOk then
        { reply := Except.ok (), fatal := false, state := r.1, jobs := r.2,
          persisted := some (make_snapshot r.1) }
      else
        { reply := Except.error "StoreError", fatal := false, state := r.1,
          jobs := r.2, persisted := none }

/-- What `retrieve_piece` does: either dispatch an Unseal job for a sealed
sector containing the piece, or reply `PieceNotFound` immediately. -/
inductive RetrieveOutcome where
  | unsealJob (piece_key : String) (sector : SealedSectorMetadata)
  | pieceNotFound (piece_key : String)
  deriving Repr, DecidableEq

/-- The embedding of `SectorMetadataManager::retrieve_piece` (scheduler.rs,
lines 202-227): find the first sealed sector holding a piece with the key;
if found, send an Unseal job carrying its clone and the caller's reply
channel to the sealer pool, otherwise send `err_piecenotfound(key)` on the
reply channel.  The handler takes `&self` and never mutates state. -/
def SectorMetadataManager.retrieve_piece (m : SectorMetadataManager)
    (piece_key : String) : RetrieveOutcome :=
  match m.state.sealed.sectors.find? (fun p =>
      p.2.pieces.any (fun piece => decide (piece.piece_key = piece_key))) with
  | some p => RetrieveOutcome.unsealJob piece_key p.2
  | none => RetrieveOutcome.pieceNotFound piece_key

/-- One entry of the PoSt generator's input (`internal::PoStInputPart`). -/
structure PoStInputPart where
  sealed_sector_access : Option String
  comm_r : CommR
  deriving Repr, DecidableEq

/-- The PoSt generator's input (`internal::PoStInput`); the 32-byte
challenge seed is embedded as an abstract `Nat`. -/
structure PoStInput where
  challenge_seed : Nat
  input_parts : List PoStInputPart
  deriving Repr, DecidableEq

/-- The embedding of the `entry(k).or_insert(v)` step of `generate_post`'s
fold: insert only when the key is absent (first occurrence wins). -/
def entryOrInsert (acc : List (CommR × String)) (k : CommR) (v : String) :
    List (CommR × String) :=
  match mapLookup acc k with
  | some _ => acc
  | none => acc ++ [(k, v)]

/-- The embedding of `SectorMetadataManager::generate_post`'s input
construction (scheduler.rs, lines 165-188): fold the sealed map's values
into a comm_r-to-access mapping with `or_insert`, then build one input part
per requested comm_r in order, with the access looked up in the mapping. -/
def SectorMetadataManager.generate_post_input (m : SectorMetadataManager)
    (comm_rs : List CommR) (challenge_seed : Nat) : PoStInput :=
  let comm_r_to_sector_access : List (CommR × String) :=
    (m.state.sealed.sectors.map Prod.snd).foldl
      (fun acc item => entryOrInsert acc item.comm_r item.sector_access) []
  { challenge_seed := challenge_seed,
    input_parts := comm_rs.map (fun c =>
      { sealed_sector_access := mapLookup comm_r_to_sector_access c, comm_r := c }) }

/-- The embedding of `SectorMetadataManager::generate_post`: call the
external proof generator (`internal::generate_post`, a parameter here) on
exactly the constructed input and forward its output to the reply channel. -/
def SectorMetadataManager.generate_post {π : Type} (gen : PoStInput → π)
    (m : SectorMetadataManager) (comm_rs : List CommR) (challenge_seed : Nat) : π :=
  gen (m.generate_post_input comm_rs challenge_seed)

/-- The embedding of `SectorMetadataManager::get_sealed_sectors`: clones of
the sealed map's values. -/
def SectorMetadataManager.get_sealed_sectors (m : SectorMetadataManager) :
    List SealedSectorMetadata :=
  m.state.sealed.sectors.map Prod.snd

/-- The embedding of `SectorMetadataManager::get_staged_sectors`: clones of
the staged map's values. -/
def SectorMetadataManager.get_staged_sectors (m : SectorMetadataManager) :
    List StagedSectorMetadata :=
  m.state.staged.sectors.map Prod.snd

/-- The embedding of `SectorMetadataManager::max_user_bytes`. -/
def SectorMetadataManager.max_user_bytes (m : SectorMetadataManager) : Nat :=
  m.max_user_bytes_per_staged_sector

/-- The requests the scheduler loop dispatches (scheduler.rs `Request`);
reply channels are not data and piece bytes enter the metadata only through
their length, so `AddPiece` carries the piece length. -/
inductive Request where
  | AddPiece (piece_key : String) (piece_len : Nat)
  | GetSealStatus (sector_id : SectorId)
  | RetrievePiece (piece_key : String)
  | GetSealedSectors
  | GetStagedSectors
  | GetMaxUserBytesPerStagedSector
  | SealAllStagedSectors
  | HandleSealResult (sector_id : SectorId) (result : SealResult)
  | GeneratePoSt (comm_rs : List CommR) (challenge_seed : Nat)
  deriving Repr, DecidableEq

/-- The state visible after the scheduler loop dispatches one request
(scheduler.rs, lines 107-134).  The query handlers take `&self` and cannot
mutate; the mutating handlers are the embeddings above. -/
def dispatchState (fmtErr : String → String) (ckOk : Bool)
    (m : SectorMetadataManager) : Request → SectorBuilderState
  | Request.AddPiece piece_key piece_len => (m.add_piece ckOk piece_key piece_len).state
  | Request.GetSealStatus _ => m.state
  | Request.RetrievePiece _ => m.state
  | Request.GetSealedSectors => m.state
  | Request.GetStagedSectors => m.state
  | Request.GetMaxUserBytesPerStagedSector => m.state
  | Request.SealAllStagedSectors => (m.seal_all_staged_sectors ckOk).state
  | Request.HandleSealResult sector_id result =>
      (m.handle_seal_result fmtErr ckOk sector_id result).state
  | Request.GeneratePoSt _ _ => m.state

/-- The embedding of the scheduler's startup state construction
(`Scheduler::start_with_metadata`, scheduler.rs lines 75-88).  `loaded`
stands for the result of `load_snapshot(&kv_store, &prover_id)` followed by
`.map(|x| x.into())` (the snapshot codec lives outside src/; `into` is the
identity on the state contents per the spec's snapshot format). -/
def startupState (loaded : Option SectorBuilderState) (prover_id : List Nat)
    (last_committed_sector_id : SectorId) : SectorBuilderState :=
  loaded.getD
    { prover_id := prover_id,
      staged := { sector_id_nonce := last_committed_sector_id, sectors := [] },
      sealed := { sectors := [] } }

/-- Spec invariant I1 / P1: the key sets of the staged and sealed maps are
disjoint. -/
def DisjointMaps (st : SectorBuilderState) : Prop :=
  ∀ k ∈ mapKeys st.staged.sectors, k ∉ mapKeys st.sealed.sectors

instance (st : SectorBuilderState) : Decidable (DisjointMaps st) := by
  unfold DisjointMaps
  infer_instance

/-- The sealed-map half of spec invariant I2: every sealed key is at most
`sector_id_nonce` (fresh staged ids are allocated above the nonce). -/
def SealedKeysLeNonce (st : SectorBuilderState) : Prop :=
  ∀ k ∈ mapKeys st.sealed.sectors, k ≤ st.staged.sector_id_nonce

instance (st : SectorBuilderState) : Decidable (SealedKeysLeNonce st) := by
  unfold SealedKeysLeNonce
  infer_instance

/-- The per-entry effect of a forced `check_and_schedule(true)`: a Pending
sector's status becomes Sealing; every other entry is untouched. -/
def markPendingSealing (p : SectorId × StagedSectorMetadata) :
    SectorId × StagedSectorMetadata :=
  if p.2.seal_status = SealStatus.Pending
  then (p.1, { p.2 with seal_status := SealStatus.Sealing })
  else p

/-- An arbitrary staged-sector record, used as the default of `lookupD`. -/
def defaultStaged : StagedSectorMetadata :=
  { sector_id := 0, sector_access := "", pieces := [],
    seal_status := SealStatus.Pending, accepted_bytes := 0 }

/-- Defaulted lookup, for stating what `markSealing` dispatches. -/
def lookupD {β : Type} (l : List (Nat × β)) (k : Nat) (d : β) : β :=
  (mapLookup l k).getD d

/-- A concrete piece, for witnesses. -/
def samplePiece : PieceMetadata :=
  { piece_key := "a", num_bytes := 10, offset_in_sector := 0 }

/-- A concrete staged sector with id 102, for witnesses. -/
def sampleStagedSector : StagedSectorMetadata :=
  { sector_id := 102, sector_access := "access-102", pieces := [samplePiece],
    seal_status := SealStatus.Sealing, accepted_bytes := 10 }

/-- A concrete sealed sector with id 101, for witnesses. -/
def sampleSealedSector : SealedSectorMetadata :=
  { sector_id := 101, sector_access := "access-101", pieces := [samplePiece],
    comm_r := 7 }

/-- A concrete manager holding staged sector 102 and sealed sector 101, for
witnesses. -/
def sampleManager : SectorMetadataManager :=
  { state :=
      { prover_id := [1],
        staged := { sector_id_nonce := 102, sectors := [(102, sampleStagedSector)] },
        sealed := { sectors := [(101, sampleSealedSector)] } },
    max_num_staged_sectors := 2,
    max_user_bytes_per_staged_sector := 1024 }

/-- A concrete manager with empty maps and nonce 100, for witnesses. -/
def freshManager : SectorMetadataManager :=
  { state :=
      { prover_id := [1],
        staged := { sector_id_nonce := 100, sectors := [] },
        sealed := { sectors := [] } },
    max_num_staged_sectors := 2,
    max_user_bytes_per_staged_sector := 1024 }

/-- A concrete staged sector with id 103 still Pending, for witnesses. -/
def pendingStagedSector : StagedSectorMetadata :=
  { sector_id := 103, sector_access := "access-103", pieces := [samplePiece],
    seal_status := SealStatus.Pending, accepted_bytes := 10 }

/-- A concrete manager holding the Pending staged sector 103, for
witnesses. -/
def pendingManager : SectorMetadataManager :=
  { state :=
      { prover_id := [1],
        staged := { sector_id_nonce := 103, sectors := [(103, pendingStagedSector)] },
        sealed := { sectors := [] } },
    max_num_staged_sectors := 2,
    max_user_bytes_per_staged_sector := 1024 }

/-- A concrete manager whose staged map is empty but whose sealed map holds
key 5 above the nonce 4 — disjoint, but violating invariant I2. -/
def clashManager : SectorMetadataManager :=
  { state :=
      { prover_id := [1],
        staged := { sector_id_nonce := 4, sectors := [] },
        sealed := { sectors := [(5, sampleSealedSector)] } },
    max_num_staged_sectors := 2,
    max_user_bytes_per_staged_sector := 1024 }

end SectorBuilder

namespace StorageProofs

/-- The embedding of the loop of `challenge_into_auth_path_bits`
(circuit/por.rs, lines 44-50): push the low bit (`n & 1 == 1`),
shift right (`n >>= 1`), once per unit of height. -/
def authPathBitsLoop : Nat → Nat → List Bool
  | 0, _ => []
  | height + 1, n => decide (n % 2 = 1) :: authPathBitsLoop height (n / 2)

/-- The embedding of `challenge_into_auth_path_bits` (circuit/por.rs, lines
42-51).  `graph_height` (drgraph.rs) is outside src/ and is left abstract as
a function parameter; `usize` values are embedded as `Nat` (the Rust shifts
and masks on `usize` agree with the `Nat` operations on all `usize`
values). -/
def challenge_into_auth_path_bits (graph_height : Nat → Nat)
    (challenge : Nat) (leaves : Nat) : List Bool :=
  authPathBitsLoop (graph_height leaves) challenge

end StorageProofs

namespace SectorBuilder

@[simp] theorem mapLookup_nil {β : Type} (k : Nat) : mapLookup ([] : List (Nat × β)) k = none := rfl

@[simp] theorem mapLookup_cons {β : Type} (p : Nat × β) (rest : List (Nat × β)) (k : Nat) :
    mapLookup (p :: rest) k = if p.1 = k then some p.2 else mapLookup rest k := rfl

theorem mapLookup_eq_none_iff {β : Type} (l : List (Nat × β)) (k : Nat) :
    mapLookup l k = none ↔ k ∉ mapKeys l := by
  induction l with
  | nil => simp [mapKeys]
  | cons p rest ih =>
    by_cases h : p.1 = k
    · simp [mapKeys, h]
    · have h' : ¬k = p.1 := fun he => h he.symm
      simp [mapKeys, h, h', ih]

theorem mapLookup_isSome_iff {β : Type} (l : List (Nat × β)) (k : Nat) :
    (mapLookup l k).isSome = true ↔ k ∈ mapKeys l := by
  rw [← not_iff_not, ← mapLookup_eq_none_iff l k]
  cases hm : mapLookup l k <;> simp

theorem mapLookup_append {β : Type} (l₁ l₂ : List (Nat × β)) (k : Nat) :
    mapLookup (l₁ ++ l₂) k =
      match mapLookup l₁ k with
      | some v => some v
      | none => mapLookup l₂ k := by
  induction l₁ with
  | nil => simp
  | cons p rest ih =>
    by_cases h : p.1 = k <;> simp [h, ih]

@[simp] theorem mapRemove_lookup_self {β : Type} (l : List (Nat × β)) (k : Nat) :
    mapLookup (mapRemove l k) k = none := by
  induction l with
  | nil => rfl
  | cons p rest ih =>
    by_cases h : p.1 = k
    · simpa [mapRemove, h] using ih
    · simpa [mapRemove, h] using ih

theorem mapRemove_lookup_ne {β : Type} (l : List (Nat × β)) (k k' : Nat) (h : k' ≠ k) :
    mapLookup (mapRemove l k) k' = mapLookup l k' := by
  have h1 : ¬k = k' := fun he => h he.symm
  induction l with
  | nil => rfl
  | cons p rest ih =>
    by_cases hp : p.1 = k
    · simp [mapRemove, hp, h1, ih]
    · simp [mapRemove, hp, ih]

theorem mapRemove_of_not_mem {β : Type} (l : List (Nat × β)) (k : Nat)
    (h : mapLookup l k = none) : mapRemove l k = l := by
  induction l with
  | nil => rfl
  | cons p rest ih =>
    by_cases hp : p.1 = k
    · simp [hp] at h
    · simp [hp] at h
      simp [mapRemove, hp, ih h]

@[simp] theorem mapInsert_lookup_self {β : Type} (l : List (Nat × β)) (k : Nat) (v : β) :
    mapLookup (mapInsert l k v) k = some v := by
  rw [mapInsert, mapLookup_append]
  simp

theorem mapInsert_lookup_ne {β : Type} (l : List (Nat × β)) (k k' : Nat) (v : β) (h : k' ≠ k) :
    mapLookup (mapInsert l k v) k' = mapLookup l k' := by
  have h1 : ¬k = k' := fun he => h he.symm
  rw [mapInsert, mapLookup_append, mapRemove_lookup_ne l k k' h]
  cases hm : mapLookup l k' with
  | none => simp [h1]
  | some w => rfl

theorem mapModify_lookup_self {β : Type} (l : List (Nat × β)) (k : Nat) (f : β → β) :
    mapLookup (mapModify l k f) k = (mapLookup l k).map f := by
  induction l with
  | nil => rfl
  | cons p rest ih =>
    by_cases h : p.1 = k <;> simp [mapModify, h, ih]

theorem mapModify_lookup_ne {β : Type} (l : List (Nat × β)) (k k' : Nat) (f : β → β) (h : k' ≠ k) :
    mapLookup (mapModify l k f) k' = mapLookup l k' := by
  have h1 : ¬k = k' := fun he => h he.symm
  induction l with
  | nil => rfl
  | cons p rest ih =>
    by_cases hp : p.1 = k
    · simp [mapModify, hp, h1]
    · simp [mapModify, hp, ih]

theorem mapModify_of_not_mem {β : Type} (l : List (Nat × β)) (k : Nat) (f : β → β)
    (h : mapLookup l k = none) : mapModify l k f = l := by
  induction l with
  | nil => rfl
  | cons p rest ih =>
    by_cases hp : p.1 = k
    · simp [hp] at h
    · simp [hp] at h
      simp [mapModify, hp, ih h]

@[simp] theorem mapKeys_modify {β : Type} (l : List (Nat × β)) (k : Nat) (f : β → β) :
    mapKeys (mapModify l k f) = mapKeys l := by
  induction l with
  | nil => rfl
  | cons p rest ih =>
    by_cases h : p.1 = k <;> simp [mapModify, mapKeys, h] at * <;> simp [ih]

/-- C1: for every state and sector id, `handle_seal_result(sector_id,
Ok(sealed_meta))` removes the staged sector with that id, inserts the given
sealed metadata into the sealed map under the same id (all other entries of
both maps untouched, nonce untouched), and then checkpoints the new state;
a checkpoint failure at that point is fatal (the handler aborts) rather
than surfacing an error on a reply channel. -/
theorem handle_seal_result_ok_spec (fmtErr : String → String) (ckOk : Bool)
    (m : SectorMetadataManager) (sector_id : SectorId) (meta : SealedSectorMetadata) :
    mapLookup (m.handle_seal_result fmtErr ckOk sector_id (SealResult.ok meta)).state.staged.sectors sector_id = none ∧
    (∀ k, k ≠ sector_id →
      mapLookup (m.handle_seal_result fmtErr ckOk sector_id (SealResult.ok meta)).state.staged.sectors k =
        mapLookup m.state.staged.sectors k) ∧
    mapLookup (m.handle_seal_result fmtErr ckOk sector_id (SealResult.ok meta)).state.sealed.sectors sector_id = some meta ∧
    (∀ k, k ≠ sector_id →
      mapLookup (m.handle_seal_result fmtErr ckOk sector_id (SealResult.ok meta)).state.sealed.sectors k =
        mapLookup m.state.sealed.sectors k) ∧
    (m.handle_seal_result fmtErr ckOk sector_id (SealResult.ok meta)).state.staged.sector_id_nonce =
      m.state.staged.sector_id_nonce ∧
    (m.handle_seal_result fmtErr ckOk sector_id (SealResult.ok meta)).reply = Except.ok () ∧
    (m.handle_seal_result fmtErr ckOk sector_id (SealResult.ok meta)).fatal = !ckOk ∧
    (m.handle_seal_result fmtErr ckOk sector_id (SealResult.ok meta)).persisted =
      (if ckOk then
        some (make_snapshot (m.handle_seal_result fmtErr ckOk sector_id (SealResult.ok meta)).state)
       else none) := by
  refine ⟨?_, ?_, ?_, ?_, rfl, rfl, rfl, rfl⟩
  · simp [SectorMetadataManager.handle_seal_result, sealResultTransition]
  · intro k hk
    simp [SectorMetadataManager.handle_seal_result, sealResultTransition,
      mapRemove_lookup_ne _ _ _ hk]
  · simp [SectorMetadataManager.handle_seal_result, sealResultTransition]
  · intro k hk
    simp [SectorMetadataManager.handle_seal_result, sealResultTransition,
      mapInsert_lookup_ne _ _ _ _ hk]

/-- Witness for C1: the theorem applied to the sample manager, sector 102. -/
theorem handle_seal_result_ok_witness :
    mapLookup (sampleManager.handle_seal_result id true 102 (SealResult.ok sampleSealedSector)).state.staged.sectors 102 = none ∧
    mapLookup (sampleManager.handle_seal_result id true 102 (SealResult.ok sampleSealedSector)).state.sealed.sectors 101 =
      mapLookup sampleManager.state.sealed.sectors 101 :=
  ⟨(handle_seal_result_ok_spec id true sampleManager 102 sampleSealedSector).1,
   (handle_seal_result_ok_spec id true sampleManager 102 sampleSealedSector).2.2.2.1 101 (by decide)⟩

/-- C4: for every state whose staged map holds `sector_id`,
`handle_seal_result(sector_id, Err(e))` sets that sector's status to
`Failed` of the formatted error, removes nothing (all other staged entries
untouched), leaves the sealed map unchanged, and checkpoints (fatally on
checkpoint failure); `get_seal_status(sector_id)` on the resulting state
returns the `Failed` status. -/
theorem handle_seal_result_err_spec (fmtErr : String → String) (ckOk : Bool)
    (m : SectorMetadataManager) (sector_id : SectorId) (e : String)
    (s : StagedSectorMetadata)
    (hs : mapLookup m.state.staged.sectors sector_id = some s) :
    mapLookup (m.handle_seal_result fmtErr ckOk sector_id (SealResult.err e)).state.staged.sectors sector_id =
      some { s with seal_status := SealStatus.Failed (fmtErr e) } ∧
    (∀ k, k ≠ sector_id →
      mapLookup (m.handle_seal_result fmtErr ckOk sector_id (SealResult.err e)).state.staged.sectors k =
        mapLookup m.state.staged.sectors k) ∧
    (m.handle_seal_result fmtErr ckOk sector_id (SealResult.err e)).state.sealed = m.state.sealed ∧
    (m.handle_seal_result fmtErr ckOk sector_id (SealResult.err e)).state.staged.sector_id_nonce =
      m.state.staged.sector_id_nonce ∧
    (m.handle_seal_result fmtErr ckOk sector_id (SealResult.err e)).fatal = !ckOk ∧
    (m.handle_seal_result fmtErr ckOk sector_id (SealResult.err e)).persisted =
      (if ckOk then
        some (make_snapshot (m.handle_seal_result fmtErr ckOk sector_id (SealResult.err e)).state)
       else none) ∧
    SectorBuilder.get_seal_status
      (m.handle_seal_result fmtErr ckOk sector_id (SealResult.err e)).state.staged
      (m.handle_seal_result fmtErr ckOk sector_id (SealResult.err e)).state.sealed
      sector_id = Except.ok (SealStatus.Failed (fmtErr e)) := by
  have hfail : mapLookup (m.handle_seal_result fmtErr ckOk sector_id (SealResult.err e)).state.staged.sectors sector_id =
      some { s with seal_status := SealStatus.Failed (fmtErr e) } := by
    simp [SectorMetadataManager.handle_seal_result, sealResultTransition,
      mapModify_lookup_self, hs]
  refine ⟨hfail, ?_, rfl, rfl, rfl, rfl, ?_⟩
  · intro k hk
    simp [SectorMetadataManager.handle_seal_result, sealResultTransition,
      mapModify_lookup_ne _ _ _ _ hk]
  · simp [SectorBuilder.get_seal_status, hfail]

/-- Witness for C4: the theorem applied to the sample manager, whose staged
map holds sector 102. -/
theorem handle_seal_result_err_witness :
    mapLookup (sampleManager.handle_seal_result id true 102 (SealResult.err "boom")).state.staged.sectors 102 =
      some { sampleStagedSector with seal_status := SealStatus.Failed "boom" } ∧
    SectorBuilder.get_seal_status
      (sampleManager.handle_seal_result id true 102 (SealResult.err "boom")).state.staged
      (sampleManager.handle_seal_result id true 102 (SealResult.err "boom")).state.sealed
      102 = Except.ok (SealStatus.Failed "boom") :=
  ⟨(handle_seal_result_err_spec id true sampleManager 102 "boom" sampleStagedSector rfl).1,
   (handle_seal_result_err_spec id true sampleManager 102 "boom" sampleStagedSector rfl).2.2.2.2.2.2⟩

/-- Counterexample to C5: with an empty staged map (sector 101 unknown),
`handle_seal_result(101, Ok(_))` completes normally — `fatal` is `false` —
contrary to the claim that an unknown sector id aborts the coordinator. -/
theorem handle_seal_result_unknown_completes :
    mapLookup freshManager.state.staged.sectors 101 = none ∧
    (freshManager.handle_seal_result id true 101 (SealResult.ok sampleSealedSector)).fatal = false :=
  ⟨rfl, rfl⟩

/-- C5 (amended): for every state whose staged map does not contain
`sector_id`, `handle_seal_result(sector_id, result)` completes normally
(it is fatal only when the checkpoint write fails): with an Ok result the
staged map is untouched and the sealed metadata is still inserted under
`sector_id`; with an Err result neither map changes. -/
theorem handle_seal_result_unknown_spec (fmtErr : String → String) (ckOk : Bool)
    (m : SectorMetadataManager) (sector_id : SectorId) (result : SealResult)
    (h : mapLookup m.state.staged.sectors sector_id = none) :
    (m.handle_seal_result fmtErr ckOk sector_id result).fatal = !ckOk ∧
    (m.handle_seal_result fmtErr ckOk sector_id result).reply = Except.ok () ∧
    (match result with
     | SealResult.ok meta =>
        (m.handle_seal_result fmtErr ckOk sector_id result).state.staged = m.state.staged ∧
        (m.handle_seal_result fmtErr ckOk sector_id result).state.sealed.sectors =
          mapInsert m.state.sealed.sectors sector_id meta
     | SealResult.err _ =>
        (m.handle_seal_result fmtErr ckOk sector_id result).state = m.state) := by
  refine ⟨rfl, rfl, ?_⟩
  cases result with
  | ok meta =>
    refine ⟨?_, rfl⟩
    simp [SectorMetadataManager.handle_seal_result, sealResultTransition,
      mapRemove_of_not_mem _ _ h]
  | err e =>
    simp [SectorMetadataManager.handle_seal_result, sealResultTransition,
      mapModify_of_not_mem _ _ _ h]

/-- Witness for C5 (amended): the theorem applied to the sample manager at
the unknown sector id 999. -/
theorem handle_seal_result_unknown_witness :
    (sampleManager.handle_seal_result id true 999 (SealResult.err "boom")).fatal = false ∧
    (sampleManager.handle_seal_result id true 999 (SealResult.err "boom")).state = sampleManager.state :=
  ⟨(handle_seal_result_unknown_spec id true sampleManager 999 (SealResult.err "boom") rfl).1,
   (handle_seal_result_unknown_spec id true sampleManager 999 (SealResult.err "boom") rfl).2.2⟩

/-- C9: at scheduler startup, when no snapshot is found the initial state
has `sector_id_nonce = last_committed_sector_id`, an empty staged map and an
empty sealed map (and the given prover id); when a snapshot is present the
state is the one reconstituted from it. -/
theorem startup_state_spec (prover_id : List Nat) (last_committed_sector_id : SectorId) :
    (startupState none prover_id last_committed_sector_id).staged.sector_id_nonce =
      last_committed_sector_id ∧
    (startupState none prover_id last_committed_sector_id).staged.sectors = [] ∧
    (startupState none prover_id last_committed_sector_id).sealed.sectors = [] ∧
    (startupState none prover_id last_committed_sector_id).prover_id = prover_id ∧
    ∀ s : SectorBuilderState, startupState (some s) prover_id last_committed_sector_id = s :=
  ⟨rfl, rfl, rfl, rfl, fun _ => rfl⟩

/-- C6: `retrieve_piece` replies `PieceNotFound(key)` exactly when no sealed
sector holds a piece with the key (staged sectors are never consulted, so a
piece only in a staged sector also gets `PieceNotFound`); when some sealed
sector holds the key, the outcome is instead an Unseal job carrying that
sealed sector's metadata, and the handler never mutates the state. -/
theorem retrieve_piece_spec (m : SectorMetadataManager) (piece_key : String) :
    (m.retrieve_piece piece_key = RetrieveOutcome.pieceNotFound piece_key ↔
      ∀ p ∈ m.state.sealed.sectors, ∀ piece ∈ p.2.pieces, piece.piece_key ≠ piece_key) ∧
    (∀ s, m.retrieve_piece piece_key = RetrieveOutcome.unsealJob piece_key s →
      s ∈ m.state.sealed.sectors.map Prod.snd ∧
      ∃ piece ∈ s.pieces, piece.piece_key = piece_key) ∧
    ((∃ p ∈ m.state.sealed.sectors, ∃ piece ∈ p.2.pieces, piece.piece_key = piece_key) →
      ∃ s, m.retrieve_piece piece_key = RetrieveOutcome.unsealJob piece_key s) ∧
    (∀ fmtErr ckOk, dispatchState fmtErr ckOk m (Request.RetrievePiece piece_key) = m.state) := by
  refine ⟨?_, ?_, ?_, fun _ _ => rfl⟩
  · unfold SectorMetadataManager.retrieve_piece
    cases hf : m.state.sealed.sectors.find? (fun p =>
        p.2.pieces.any (fun piece => decide (piece.piece_key = piece_key))) with
    | none =>
      simp only [hf]
      rw [List.find?_eq_none] at hf
      constructor
      · intro _ p hp piece hpiece
        have := hf p hp
        simp only [List.any_eq_true, decide_eq_true_eq, not_exists, not_and] at this
        exact this piece hpiece
      · intro _
        trivial
    | some p =>
      simp only [hf]
      have hp := List.find?_some hf
      simp only [List.any_eq_true, decide_eq_true_eq] at hp
      obtain ⟨piece, hpiece, hkey⟩ := hp
      constructor
      · intro h
        cases h
      · intro hall
        exact absurd hkey (hall p (List.mem_of_find?_eq_some hf) piece hpiece)
  · intro s hs
    unfold SectorMetadataManager.retrieve_piece at hs
    cases hf : m.state.sealed.sectors.find? (fun p =>
        p.2.pieces.any (fun piece => decide (piece.piece_key = piece_key))) with
    | none => rw [hf] at hs; cases hs
    | some p =>
      rw [hf] at hs
      cases hs
      have hmem := List.mem_of_find?_eq_some hf
      have hp := List.find?_some hf
      simp only [List.any_eq_true, decide_eq_true_eq] at hp
      exact ⟨List.mem_map_of_mem Prod.snd hmem, hp⟩
  · intro ⟨p, hp, piece, hpiece, hkey⟩
    unfold SectorMetadataManager.retrieve_piece
    cases hf : m.state.sealed.sectors.find? (fun q =>
        q.2.pieces.any (fun piece => decide (piece.piece_key = piece_key))) with
    | none =>
      rw [List.find?_eq_none] at hf
      have := hf p hp
      simp only [List.any_eq_true, decide_eq_true_eq, not_exists, not_and] at this
      exact absurd hkey (this piece hpiece)
    | some q => exact ⟨q.2, rfl⟩

/-- Witness for C6: in the sample manager, piece "a" is in sealed sector
101, so retrieval dispatches an Unseal job; the unknown key "zzz" gets
`PieceNotFound`. -/
theorem retrieve_piece_witness :
    sampleManager.retrieve_piece "a" = RetrieveOutcome.unsealJob "a" sampleSealedSector ∧
    sampleManager.retrieve_piece "zzz" = RetrieveOutcome.pieceNotFound "zzz" :=
  ⟨rfl, (retrieve_piece_spec sampleManager "zzz").1.mpr (by decide)⟩

/-- Counterexample to C3: on the fresh manager, a 10-byte piece is placed in
a new staged sector, but the checkpoint write fails; `add_piece` then
returns an error to the caller while the mutated staged state remains
visible — the handler is not atomic on checkpoint errors. -/
theorem add_piece_checkpoint_error_mutates :
    (freshManager.add_piece false "a" 10).reply = Except.error "StoreError" ∧
    (freshManager.add_piece false "a" 10).state ≠ freshManager.state := by
  exact ⟨rfl, by decide⟩

/-- C3 (amended): `add_piece` is atomic on placement errors: whenever the
packing helper fails — in particular with `CapacityExceeded` when the piece
exceeds `max_unsealed_bytes_per_sector` — the helper's error is returned
and the state visible after the handler is unchanged, with no jobs
dispatched and no snapshot written.  (An error from the checkpoint step,
after a successful placement, is returned with the mutated state left in
place.) -/
theorem add_piece_error_spec (ckOk : Bool) (m : SectorMetadataManager)
    (piece_key : String) (piece_len : Nat) :
    (m.max_user_bytes_per_staged_sector < piece_len →
      (m.add_piece ckOk piece_key piece_len).reply = Except.error "CapacityExceeded" ∧
      (m.add_piece ckOk piece_key piece_len).state = m.state) ∧
    (∀ e, add_piece_helper m.max_user_bytes_per_staged_sector m.state.staged piece_key piece_len =
        Except.error e →
      (m.add_piece ckOk piece_key piece_len).reply = Except.error e ∧
      (m.add_piece ckOk piece_key piece_len).state = m.state ∧
      (m.add_piece ckOk piece_key piece_len).jobs = [] ∧
      (m.add_piece ckOk piece_key piece_len).persisted = none) := by
  have hgen : ∀ e, add_piece_helper m.max_user_bytes_per_staged_sector m.state.staged
      piece_key piece_len = Except.error e →
      (m.add_piece ckOk piece_key piece_len).reply = Except.error e ∧
      (m.add_piece ckOk piece_key piece_len).state = m.state ∧
      (m.add_piece ckOk piece_key piece_len).jobs = [] ∧
      (m.add_piece ckOk piece_key piece_len).persisted = none := by
    intro e he
    simp [SectorMetadataManager.add_piece, he]
  refine ⟨?_, hgen⟩
  intro hlen
  have he : add_piece_helper m.max_user_bytes_per_staged_sector m.state.staged
      piece_key piece_len = Except.error "CapacityExceeded" := by
    simp [add_piece_helper, hlen]
  exact ⟨(hgen _ he).1, (hgen _ he).2.1⟩

/-- Witness for C3 (amended): an 1100-byte piece exceeds the sample
manager's 1024-byte sector capacity, fails with `CapacityExceeded`, and
leaves the state unchanged. -/
theorem add_piece_error_witness :
    1024 < 1100 ∧
    (sampleManager.add_piece true "big" 1100).reply = Except.error "CapacityExceeded" ∧
    (sampleManager.add_piece true "big" 1100).state = sampleManager.state :=
  ⟨by decide,
   ((add_piece_error_spec true sampleManager "big" 1100).1 (by decide)).1,
   ((add_piece_error_spec true sampleManager "big" 1100).1 (by decide)).2⟩

/-- Looking a key up after an `entry(k).or_insert(v)` step: an existing
binding wins; otherwise the key just inserted is visible. -/
theorem entryOrInsert_lookup (acc : List (CommR × String)) (k : CommR) (v : String) (c : CommR) :
    mapLookup (entryOrInsert acc k v) c =
      match mapLookup acc c with
      | some w => some w
      | none => if k = c then some v else none := by
  unfold entryOrInsert
  cases hk : mapLookup acc k with
  | some w =>
    cases hc : mapLookup acc c with
    | some w' => simp [hc]
    | none =>
      have hkc : ¬k = c := fun he => by rw [he, hc] at hk; cases hk
      simp [hc, hkc]
  | none =>
    rw [mapLookup_append]
    cases hc : mapLookup acc c with
    | some w' => simp [hc]
    | none => simp [hc, mapLookup]

/-- Looking a key up in the comm_r-to-access fold of `generate_post`: the
first sealed-sector value (in fold order) with that comm_r wins. -/
theorem foldl_entryOrInsert_lookup (values : List SealedSectorMetadata) :
    ∀ (acc : List (CommR × String)) (c : CommR),
    mapLookup (values.foldl (fun a item => entryOrInsert a item.comm_r item.sector_access) acc) c =
      match mapLookup acc c with
      | some w => some w
      | none => (values.find? (fun s => decide (s.comm_r = c))).map (fun s => s.sector_access) := by
  induction values with
  | nil =>
    intro acc c
    cases hc : mapLookup acc c <;> simp [hc]
  | cons v vs ih =>
    intro acc c
    rw [List.foldl_cons, ih, entryOrInsert_lookup]
    cases hc : mapLookup acc c with
    | some w => simp [hc]
    | none =>
      by_cases hvc : v.comm_r = c
      · simp [hc, hvc, List.find?_cons_of_pos]
      · simp [hc, hvc, List.find?_cons_of_neg]

/-- C7: `generate_post` builds the comm_r-to-access mapping by folding the
sealed map's values with first-occurrence-wins semantics, produces one input
part per requested comm_r in input order — access `Some` when a sealed
sector with that comm_r exists (the first encountered one), `None`
otherwise — and passes exactly that list with the seed to the proof
generator, forwarding its result; the state is not mutated. -/
theorem generate_post_spec {π : Type} (gen : PoStInput → π) (m : SectorMetadataManager)
    (comm_rs : List CommR) (challenge_seed : Nat) :
    m.generate_post gen comm_rs challenge_seed =
      gen (m.generate_post_input comm_rs challenge_seed) ∧
    (m.generate_post_input comm_rs challenge_seed).challenge_seed = challenge_seed ∧
    (m.generate_post_input comm_rs challenge_seed).input_parts =
      comm_rs.map (fun c =>
        { comm_r := c,
          sealed_sector_access :=
            ((m.state.sealed.sectors.map Prod.snd).find? (fun s => decide (s.comm_r = c))).map
              (fun s => s.sector_access) }) ∧
    (∀ fmtErr ckOk,
      dispatchState fmtErr ckOk m (Request.GeneratePoSt comm_rs challenge_seed) = m.state) := by
  refine ⟨rfl, rfl, ?_, fun _ _ => rfl⟩
  unfold SectorMetadataManager.generate_post_input
  simp only
  refine congrArg (List.map · comm_rs) (funext fun c => ?_)
  rw [foldl_entryOrInsert_lookup]
  rfl

theorem map_if_eq_of_not_mem_keys {β : Type} (l : List (Nat × β)) (k : Nat)
    (g : Nat × β → Nat × β) (h : k ∉ mapKeys l) :
    l.map (fun p => if p.1 = k then g p else p) = l := by
  induction l with
  | nil => rfl
  | cons p rest ih =>
    simp only [mapKeys, List.map_cons, List.mem_cons, not_or] at h
    have hp : ¬p.1 = k := fun he => h.1 he.symm
    simp only [List.map_cons, if_neg hp]
    rw [ih h.2]

theorem mapModify_eq_map_of_nodup {β : Type} (l : List (Nat × β)) (k : Nat) (f : β → β)
    (hnd : (mapKeys l).Nodup) :
    mapModify l k f = l.map (fun p => if p.1 = k then (p.1, f p.2) else p) := by
  induction l with
  | nil => rfl
  | cons p rest ih =>
    simp only [mapKeys, List.map_cons, List.nodup_cons] at hnd
    show (if p.1 = k then (p.1, f p.2) :: rest else p :: mapModify rest k f) =
      (if p.1 = k then (p.1, f p.2) else p) ::
        rest.map (fun q => if q.1 = k then (q.1, f q.2) else q)
    by_cases hp : p.1 = k
    · subst hp
      rw [if_pos rfl, if_pos rfl,
        map_if_eq_of_not_mem_keys rest p.1 (fun q => (q.1, f q.2)) hnd.1]
    · rw [if_neg hp, if_neg hp, ih hnd.2]

theorem mapLookup_of_mem_nodup {β : Type} (l : List (Nat × β)) (q : Nat × β)
    (hnd : (mapKeys l).Nodup) (hq : q ∈ l) : mapLookup l q.1 = some q.2 := by
  induction l with
  | nil => cases hq
  | cons p rest ih =>
    simp only [mapKeys, List.map_cons, List.nodup_cons] at hnd
    rcases List.mem_cons.mp hq with h | h
    · subst h; simp
    · have hne : ¬p.1 = q.1 := by
        intro he
        exact hnd.1 (he ▸ List.mem_map_of_mem Prod.fst h)
      simp only [mapLookup_cons, if_neg hne]
      exact ih hnd.2 h

theorem nodupKeys_eq_of_mem {β : Type} (l : List (Nat × β)) (p q : Nat × β)
    (hnd : (mapKeys l).Nodup) (hp : p ∈ l) (hq : q ∈ l) (hk : p.1 = q.1) : p = q := by
  have h1 := mapLookup_of_mem_nodup l p hnd hp
  have h2 := mapLookup_of_mem_nodup l q hnd hq
  rw [hk, h2] at h1
  exact Prod.ext hk (Option.some.inj h1).symm

theorem mem_keys_remove {β : Type} (l : List (Nat × β)) (k k' : Nat) :
    k' ∈ mapKeys (mapRemove l k) ↔ k' ∈ mapKeys l ∧ k' ≠ k := by
  rw [← mapLookup_isSome_iff, ← mapLookup_isSome_iff]
  by_cases h : k' = k
  · subst h
    simp
  · rw [mapRemove_lookup_ne l k k' h]
    simp [h]

theorem markSealing_keys (ids : List SectorId) :
    ∀ (sectors : List (SectorId × StagedSectorMetadata))
      (r : List (SectorId × StagedSectorMetadata) × List SealerInput),
    markSealing sectors ids = some r → mapKeys r.1 = mapKeys sectors := by
  induction ids with
  | nil =>
    intro sectors r h
    simp only [markSealing] at h
    cases h
    rfl
  | cons i rest ih =>
    intro sectors r h
    unfold markSealing at h
    split at h
    · cases h
    · rename_i s hs
      split at h
      · cases h
      · rename_i r2 hrec
        cases h
        rw [ih _ _ hrec, mapKeys_modify]

theorem add_piece_helper_keys (max_user : Nat) (staged : StagedState)
    (piece_key : String) (piece_len : Nat) (r : SectorId × StagedState)
    (h : add_piece_helper max_user staged piece_key piece_len = Except.ok r) :
    mapKeys r.2.sectors = mapKeys staged.sectors ∨
    mapKeys r.2.sectors = mapKeys staged.sectors ++ [staged.sector_id_nonce + 1] := by
  unfold add_piece_helper at h
  by_cases hlen : max_user < piece_len
  · rw [if_pos hlen] at h; cases h
  · rw [if_neg hlen] at h
    cases hd : find_destination staged.sectors piece_len max_user with
    | some sid =>
      rw [hd] at h
      cases h
      left
      exact mapKeys_modify _ _ _
    | none =>
      rw [hd] at h
      cases h
      right
      simp [mapKeys]

theorem markSealing_spec (ids : List SectorId) :
    ∀ (sectors : List (SectorId × StagedSectorMetadata)),
    (mapKeys sectors).Nodup → ids.Nodup → (∀ i ∈ ids, i ∈ mapKeys sectors) →
    markSealing sectors ids =
      some (sectors.map (fun p =>
              if p.1 ∈ ids then (p.1, { p.2 with seal_status := SealStatus.Sealing }) else p),
            ids.map (fun i => SealerInput.Seal
              { lookupD sectors i defaultStaged with seal_status := SealStatus.Sealing })) := by
  induction ids with
  | nil =>
    intro sectors _ _ _
    simp [markSealing]
  | cons i rest ih =>
    intro sectors hnd hids hmem
    have hinotrest : i ∉ rest := (List.nodup_cons.mp hids).1
    have hrestnd : rest.Nodup := (List.nodup_cons.mp hids).2
    have hi : i ∈ mapKeys sectors := hmem i (List.mem_cons_self i rest)
    obtain ⟨s, hs⟩ := Option.isSome_iff_exists.mp ((mapLookup_isSome_iff sectors i).mpr hi)
    have hnd1 : (mapKeys (mapModify sectors i
        (fun _ => { s with seal_status := SealStatus.Sealing }))).Nodup := by
      rw [mapKeys_modify]; exact hnd
    have hmem1 : ∀ j ∈ rest, j ∈ mapKeys (mapModify sectors i
        (fun _ => { s with seal_status := SealStatus.Sealing })) := by
      intro j hj
      rw [mapKeys_modify]
      exact hmem j (List.mem_cons_of_mem i hj)
    have hrec := ih (mapModify sectors i
      (fun _ => { s with seal_status := SealStatus.Sealing })) hnd1 hrestnd hmem1
    have hstep : markSealing sectors (i :: rest) =
        some ((mapModify sectors i
                (fun _ => { s with seal_status := SealStatus.Sealing })).map (fun p =>
                  if p.1 ∈ rest then (p.1, { p.2 with seal_status := SealStatus.Sealing }) else p),
              SealerInput.Seal { s with seal_status := SealStatus.Sealing } ::
                rest.map (fun j => SealerInput.Seal
                  { lookupD (mapModify sectors i
                      (fun _ => { s with seal_status := SealStatus.Sealing })) j defaultStaged with
                    seal_status := SealStatus.Sealing })) := by
      show (match mapLookup sectors i with
        | none => none
        | some s =>
            match markSealing
                (mapModify sectors i
                  (fun _ => { s with seal_status := SealStatus.Sealing })) rest with
            | none => none
            | some r =>
                some (r.1,
                  SealerInput.Seal { s with seal_status := SealStatus.Sealing } :: r.2)) = _
      rw [hs]
      show (match markSealing
          (mapModify sectors i
            (fun _ => { s with seal_status := SealStatus.Sealing })) rest with
        | none => none
        | some r =>
            some (r.1,
              SealerInput.Seal { s with seal_status := SealStatus.Sealing } :: r.2)) = _
      rw [hrec]
    rw [hstep]
    have hA : (mapModify sectors i
        (fun _ => { s with seal_status := SealStatus.Sealing })).map (fun p =>
          if p.1 ∈ rest then (p.1, { p.2 with seal_status := SealStatus.Sealing }) else p) =
        sectors.map (fun p =>
          if p.1 ∈ i :: rest then (p.1, { p.2 with seal_status := SealStatus.Sealing }) else p) := by
      rw [mapModify_eq_map_of_nodup sectors i _ hnd, List.map_map]
      apply List.map_congr_left
      intro p hp
      by_cases hpi : p.1 = i
      · have hpr : p.1 ∉ rest := hpi ▸ hinotrest
        have hlp := mapLookup_of_mem_nodup sectors p hnd hp
        rw [hpi, hs] at hlp
        have hps : s = p.2 := Option.some.inj hlp
        simp [Function.comp, hpi, hpr, List.mem_cons, hps]
      · by_cases hpr : p.1 ∈ rest <;>
          simp [Function.comp, hpi, hpr, List.mem_cons]
    have hB : SealerInput.Seal { s with seal_status := SealStatus.Sealing } ::
        rest.map (fun j => SealerInput.Seal
          { lookupD (mapModify sectors i
              (fun _ => { s with seal_status := SealStatus.Sealing })) j defaultStaged with
            seal_status := SealStatus.Sealing }) =
        (i :: rest).map (fun j => SealerInput.Seal
          { lookupD sectors j defaultStaged with seal_status := SealStatus.Sealing }) := by
      rw [List.map_cons]
      have hhead : lookupD sectors i defaultStaged = s := by
        rw [lookupD, hs]; rfl
      rw [hhead]
      congr 1
      apply List.map_congr_left
      intro j hj
      have hji : j ≠ i := fun he => hinotrest (he ▸ hj)
      rw [lookupD, lookupD, mapModify_lookup_ne _ _ _ _ hji]
    rw [hA, hB]

/-- C8: with well-formed (duplicate-free) map keys,
`seal_all_staged_sectors` transitions every Pending staged sector to
Sealing regardless of fill level (all other entries and the sealed map
untouched), dispatches exactly one Seal job per Pending sector (in map
order, carrying the updated metadata), never aborts, and — when the
snapshot write succeeds — replies Ok and checkpoints the new state; with
zero Pending sectors the job list is empty and the checkpoint still
happens. -/
theorem seal_all_staged_sectors_spec (ckOk : Bool) (m : SectorMetadataManager)
    (hnd : (mapKeys m.state.staged.sectors).Nodup) :
    (m.seal_all_staged_sectors ckOk).fatal = false ∧
    (ckOk = true → (m.seal_all_staged_sectors ckOk).reply = Except.ok ()) ∧
    (m.seal_all_staged_sectors ckOk).state.staged.sectors =
      m.state.staged.sectors.map markPendingSealing ∧
    (m.seal_all_staged_sectors ckOk).state.staged.sector_id_nonce =
      m.state.staged.sector_id_nonce ∧
    (m.seal_all_staged_sectors ckOk).state.sealed = m.state.sealed ∧
    (m.seal_all_staged_sectors ckOk).jobs =
      (m.state.staged.sectors.filter
        (fun p => decide (p.2.seal_status = SealStatus.Pending))).map
        (fun p => SealerInput.Seal { p.2 with seal_status := SealStatus.Sealing }) ∧
    (ckOk = true → (m.seal_all_staged_sectors ckOk).persisted =
      some (make_snapshot (m.seal_all_staged_sectors ckOk).state)) := by
  have hidsnd : ((m.state.staged.sectors.filter
      (fun p => decide (p.2.seal_status = SealStatus.Pending))).map Prod.fst).Nodup :=
    hnd.sublist ((List.filter_sublist _).map Prod.fst)
  have hmem : ∀ i ∈ (m.state.staged.sectors.filter
      (fun p => decide (p.2.seal_status = SealStatus.Pending))).map Prod.fst,
      i ∈ mapKeys m.state.staged.sectors := by
    intro i hi
    obtain ⟨q, hq, hqi⟩ := List.mem_map.mp hi
    exact hqi ▸ List.mem_map_of_mem Prod.fst (List.mem_of_mem_filter hq)
  have hms := markSealing_spec _ m.state.staged.sectors hnd hidsnd hmem
  have hstate : m.state.staged.sectors.map (fun p =>
      if p.1 ∈ (m.state.staged.sectors.filter
          (fun p => decide (p.2.seal_status = SealStatus.Pending))).map Prod.fst
      then (p.1, { p.2 with seal_status := SealStatus.Sealing }) else p) =
      m.state.staged.sectors.map markPendingSealing := by
    apply List.map_congr_left
    intro p hp
    by_cases hpend : p.2.seal_status = SealStatus.Pending
    · have hp1 : p.1 ∈ (m.state.staged.sectors.filter
          (fun p => decide (p.2.seal_status = SealStatus.Pending))).map Prod.fst :=
        List.mem_map_of_mem Prod.fst (List.mem_filter.mpr ⟨hp, by simp [hpend]⟩)
      simp [hp1, markPendingSealing, hpend]
    · have hp1 : p.1 ∉ (m.state.staged.sectors.filter
          (fun p => decide (p.2.seal_status = SealStatus.Pending))).map Prod.fst := by
        intro hmemp
        obtain ⟨q, hq, hqi⟩ := List.mem_map.mp hmemp
        have hqmem := List.mem_of_mem_filter hq
        have hqpend := (List.mem_filter.mp hq).2
        simp only [decide_eq_true_eq] at hqpend
        have := nodupKeys_eq_of_mem m.state.staged.sectors q p hnd hqmem hp hqi
        rw [this] at hqpend
        exact hpend hqpend
      simp [hp1, markPendingSealing, hpend]
  have hjobs : ((m.state.staged.sectors.filter
      (fun p => decide (p.2.seal_status = SealStatus.Pending))).map Prod.fst).map
      (fun i => SealerInput.Seal
        { lookupD m.state.staged.sectors i defaultStaged with
          seal_status := SealStatus.Sealing }) =
      (m.state.staged.sectors.filter
        (fun p => decide (p.2.seal_status = SealStatus.Pending))).map
        (fun p => SealerInput.Seal { p.2 with seal_status := SealStatus.Sealing }) := by
    rw [List.map_map]
    apply List.map_congr_left
    intro q hq
    have hqmem := List.mem_of_mem_filter hq
    have : lookupD m.state.staged.sectors q.1 defaultStaged = q.2 := by
      rw [lookupD, mapLookup_of_mem_nodup m.state.staged.sectors q hnd hqmem]
      rfl
    simp [Function.comp, this]
  simp only [SectorMetadataManager.seal_all_staged_sectors,
    SectorMetadataManager.check_and_schedule, get_sectors_ready_for_sealing, if_true]
  rw [hms, Option.map_some']
  cases ckOk with
  | true =>
    refine ⟨rfl, fun _ => rfl, ?_, rfl, rfl, ?_, fun _ => rfl⟩
    · exact hstate
    · exact hjobs
  | false =>
    refine ⟨rfl, ?_, ?_, rfl, rfl, ?_, ?_⟩
    · intro h; cases h
    · exact hstate
    · exact hjobs
    · intro h; cases h

/-- Witness for C8: the theorem applied to the pending manager (one
Pending staged sector, nodup keys): the sector transitions to Sealing and
the handler does not abort. -/
theorem seal_all_staged_sectors_witness :
    (pendingManager.seal_all_staged_sectors true).state.staged.sectors =
      pendingManager.state.staged.sectors.map markPendingSealing ∧
    (pendingManager.seal_all_staged_sectors true).fatal = false :=
  ⟨(seal_all_staged_sectors_spec true pendingManager (by decide)).2.2.1,
   (seal_all_staged_sectors_spec true pendingManager (by decide)).1⟩

/-- Counterexample to C2 as stated: in the clash manager the maps are
disjoint (the staged map is empty) but the nonce 4 sits below the sealed key
5, so `add_piece` allocates the fresh staged id 5 and disjointness is broken
after the handler returns — disjointness alone is not preserved without the
nonce invariant I2. -/
theorem add_piece_breaks_disjointness :
    DisjointMaps clashManager.state ∧
    ¬ DisjointMaps (dispatchState id true clashManager (Request.AddPiece "a" 10)) := by
  constructor
  · decide
  · decide

/-- C2 (amended): from any state satisfying disjointness together with the
sealed half of invariant I2 (every sealed key is at most the nonce — true
of every state the scheduler itself produces), every request handler —
`add_piece`, `seal_all_staged_sectors`, `handle_seal_result`, and the
read-only queries — leaves the staged and sealed key sets disjoint. -/
theorem dispatch_preserves_disjoint (fmtErr : String → String) (ckOk : Bool)
    (m : SectorMetadataManager) (req : Request)
    (hdisj : DisjointMaps m.state) (hnonce : SealedKeysLeNonce m.state) :
    DisjointMaps (dispatchState fmtErr ckOk m req) := by
  cases req with
  | GetSealStatus _ => exact hdisj
  | RetrievePiece _ => exact hdisj
  | GetSealedSectors => exact hdisj
  | GetStagedSectors => exact hdisj
  | GetMaxUserBytesPerStagedSector => exact hdisj
  | GeneratePoSt _ _ => exact hdisj
  | HandleSealResult sector_id result =>
    cases result with
    | err e =>
      intro k hk
      simp only [dispatchState, SectorMetadataManager.handle_seal_result,
        sealResultTransition] at hk ⊢
      rw [mapKeys_modify] at hk
      exact hdisj k hk
    | ok meta =>
      intro k hk
      simp only [dispatchState, SectorMetadataManager.handle_seal_result,
        sealResultTransition] at hk ⊢
      have hk' := (mem_keys_remove _ _ _).mp hk
      intro hks
      rw [show mapKeys (mapInsert m.state.sealed.sectors sector_id meta) =
          mapKeys (mapRemove m.state.sealed.sectors sector_id) ++ [sector_id] by
        simp [mapInsert, mapKeys]] at hks
      rcases List.mem_append.mp hks with h | h
      · exact hdisj k hk'.1 ((mem_keys_remove _ _ _).mp h).1
      · exact hk'.2 (List.mem_singleton.mp h)
  | SealAllStagedSectors =>
    simp only [dispatchState, SectorMetadataManager.seal_all_staged_sectors]
    cases hcs : m.check_and_schedule true with
    | none => exact hdisj
    | some r =>
      obtain ⟨r0, hms, hr⟩ := Option.map_eq_some'.mp hcs
      have hkeys : mapKeys r.1.staged.sectors = mapKeys m.state.staged.sectors := by
        rw [← hr]
        exact markSealing_keys _ _ _ hms
      have hsealed : r.1.sealed = m.state.sealed := by rw [← hr]
      have hres : ∀ k ∈ mapKeys r.1.staged.sectors, k ∉ mapKeys r.1.sealed.sectors := by
        intro k hk
        rw [hsealed]
        exact hdisj k (hkeys ▸ hk)
      cases ckOk with
      | true => exact fun k hk => hres k hk
      | false => exact fun k hk => hres k hk
  | AddPiece piece_key piece_len =>
    simp only [dispatchState, SectorMetadataManager.add_piece]
    split
    · exact hdisj
    · rename_i r hh
      have hkeys := add_piece_helper_keys _ _ _ _ r hh
      have hdisj1 : ∀ k ∈ mapKeys r.2.sectors, k ∉ mapKeys m.state.sealed.sectors := by
        intro k hk
        rcases hkeys with he | he
        · rw [he] at hk
          exact hdisj k hk
        · rw [he] at hk
          rcases List.mem_append.mp hk with h | h
          · exact hdisj k h
          · have hke := List.mem_singleton.mp h
            subst hke
            intro hks
            have := hnonce _ hks
            omega
      split
      · exact hdisj1
      · rename_i r2 hcs
        obtain ⟨r0, hms, hr⟩ := Option.map_eq_some'.mp hcs
        have hkeys2 : mapKeys r2.1.staged.sectors = mapKeys r.2.sectors := by
          rw [← hr]
          exact markSealing_keys _ _ _ hms
        have hsealed2 : r2.1.sealed = m.state.sealed := by rw [← hr]
        have hres : ∀ k ∈ mapKeys r2.1.staged.sectors, k ∉ mapKeys r2.1.sealed.sectors := by
          intro k hk
          rw [hsealed2]
          exact hdisj1 k (hkeys2 ▸ hk)
        split
        · exact fun k hk => hres k hk
        · exact fun k hk => hres k hk

/-- Witness for C2 (amended): the theorem applied to the sample manager
(disjoint, sealed key 101 below nonce 102) and a seal-completion request. -/
theorem dispatch_preserves_disjoint_witness :
    DisjointMaps (dispatchState id true sampleManager
      (Request.HandleSealResult 102 (SealResult.ok sampleSealedSector))) :=
  dispatch_preserves_disjoint id true sampleManager
    (Request.HandleSealResult 102 (SealResult.ok sampleSealedSector))
    (by decide) (by decide)

end SectorBuilder

namespace StorageProofs

/-- The element at index `i` of the bit loop's output is bit `i` of `n`. -/
theorem authPathBitsLoop_getD (height : Nat) :
    ∀ n i, i < height → (authPathBitsLoop height n).getD i false = n.testBit i := by
  induction height with
  | zero => intro n i h; cases h
  | succ height ih =>
    intro n i h
    cases i with
    | zero =>
      simp [authPathBitsLoop, Nat.testBit_zero]
    | succ i =>
      have : i < height := Nat.lt_of_succ_lt_succ h
      simp only [authPathBitsLoop, List.getD_cons_succ]
      rw [ih (n / 2) i this, Nat.testBit_succ]

/-- The bit loop always produces exactly `height` bits. -/
theorem authPathBitsLoop_length (height : Nat) :
    ∀ n, (authPathBitsLoop height n).length = height := by
  induction height with
  | zero => intro n; rfl
  | succ height ih => intro n; simp [authPathBitsLoop, ih]

/-- C10: for every challenge and leaf count,
`challenge_into_auth_path_bits(challenge, leaves)` is a vector of exactly
`graph_height(leaves)` booleans whose i-th element is bit i of the
challenge — the little-endian binary expansion of the challenge truncated
to `graph_height(leaves)` bits (stated for an arbitrary height function,
since `graph_height` is external to the provided sources). -/
theorem challenge_into_auth_path_bits_spec (graph_height : Nat → Nat)
    (challenge leaves : Nat) :
    (challenge_into_auth_path_bits graph_height challenge leaves).length =
      graph_height leaves ∧
    ∀ i, i < graph_height leaves →
      (challenge_into_auth_path_bits graph_height challenge leaves).getD i false =
        challenge.testBit i :=
  ⟨authPathBitsLoop_length _ _, fun i h => authPathBitsLoop_getD _ _ i h⟩

/-- Witness for C10: challenge 5 over a height function giving height 3
yields bits [true, false, true]. -/
theorem challenge_into_auth_path_bits_witness :
    0 < 3 ∧ 2 < 3 ∧
    (challenge_into_auth_path_bits (fun l => l) 5 3).getD 0 false = Nat.testBit 5 0 ∧
    (challenge_into_auth_path_bits (fun l => l) 5 3).getD 2 false = Nat.testBit 5 2 :=
  ⟨by decide, by decide,
   (challenge_into_auth_path_bits_spec (fun l => l) 5 3).2 0 (by decide),
   (challenge_into_auth_path_bits_spec (fun l => l) 5 3).2 2 (by decide)⟩

end StorageProofs
